import Mathlib

/-!
Verification of the juggler network observer core (NetworkObserver.js):
`PageNetwork`, `NetworkRequest`, `ResponseStorage`, `ResponseInterceptor`
and the `errorMap`, shallowly embedded in Lean.

JavaScript strings are modelled as lists of UTF-16 code units (`JSStr`).
Platform services that the module merely calls out to (base64 `btoa`,
the Gecko stream-converter behind `convertString`, the regex split of the
Content-Encoding header, `atob`) are abstracted as function parameters of
the embedded operations.
-/

set_option linter.unreachableTactic false
set_option linter.unusedTactic false
set_option linter.unnecessarySeqFocus false

namespace Juggler

/-- A JavaScript string: its list of UTF-16 code units. -/
abbrev JSStr := List Nat

/-- Decimal rendering of a JS number (a natural), as in `channelId + ''`:
most significant digit first, each digit as its code unit (`48 + d`). -/
def natToStr (n : Nat) : JSStr :=
  if n < 10 then [48 + n]
  else natToStr (n / 10) ++ [48 + n % 10]
decreasing_by exact Nat.div_lt_self (by omega) (by omega)

/-- Recover the natural from its decimal code-unit rendering. -/
def strVal (s : JSStr) : Nat :=
  s.foldl (fun acc d => acc * 10 + (d - 48)) 0

theorem natToStr_digits (n : Nat) : ∀ d ∈ natToStr n, 48 ≤ d ∧ d ≤ 57 := by
  induction n using Nat.strong_induction_on with
  | _ n ih =>
    rw [natToStr]
    split
    · intro d hd
      simp only [List.mem_singleton] at hd
      omega
    · intro d hd
      rcases List.mem_append.1 hd with h | h
      · exact ih (n / 10) (Nat.div_lt_self (by omega) (by omega)) d h
      · simp only [List.mem_singleton] at h
        have := Nat.mod_lt n (y := 10) (by omega)
        omega

theorem strVal_natToStr (n : Nat) : strVal (natToStr n) = n := by
  induction n using Nat.strong_induction_on with
  | _ n ih =>
    rw [natToStr]
    split
    · simp only [strVal, List.foldl_cons, List.foldl_nil]
      omega
    · have h10 : 10 ≤ n := by omega
      have hlt : n / 10 < n := Nat.div_lt_self (by omega) (by omega)
      have hmod : n % 10 < 10 := Nat.mod_lt n (by omega)
      simp only [strVal, List.foldl_append, List.foldl_cons, List.foldl_nil]
      have := ih (n / 10) hlt
      simp only [strVal] at this
      rw [this]
      omega

theorem natToStr_inj {m n : Nat} (h : natToStr m = natToStr n) : m = n := by
  have := strVal_natToStr m
  rw [h, strVal_natToStr] at this
  omega

theorem natToStr_no_dash (n : Nat) : ∀ d ∈ natToStr n, d ≠ 45 := by
  intro d hd
  have := natToStr_digits n d hd
  omega

/-- Splitting at a separator code unit that occurs in neither prefix is
unambiguous. -/
theorem append_sep_inj :
    ∀ (a b u v : JSStr), (∀ x ∈ a, x ≠ 45) → (∀ x ∈ b, x ≠ 45) →
      a ++ 45 :: u = b ++ 45 :: v → a = b ∧ u = v := by
  intro a
  induction a with
  | nil =>
    intro b u v _ hb h
    cases b with
    | nil => simpa using h
    | cons x xs =>
      simp only [List.nil_append, List.cons_append, List.cons.injEq] at h
      exact absurd h.1.symm (hb x (by simp))
  | cons x xs ih =>
    intro b u v ha hb h
    cases b with
    | nil =>
      simp only [List.cons_append, List.nil_append, List.cons.injEq] at h
      exact absurd h.1 (ha x (by simp))
    | cons y ys =>
      simp only [List.cons_append, List.cons.injEq] at h
      obtain ⟨hxy, hrest⟩ := h
      have := ih ys u v (fun z hz => ha z (by simp [hz])) (fun z hz => hb z (by simp [hz])) hrest
      exact ⟨by simp [hxy, this.1], this.2⟩

/-! ## ResponseStorage -/

/-- One entry of `ResponseStorage._responses`. In the source an evicted
entry is `{evicted: true, body: ''}` (no `encodings` field, modelled as the
empty list) and a live entry is `{body, encodings}` (no `evicted` field,
modelled as `false`). -/
structure StoredResponse where
  body : JSStr
  encodings : List JSStr
  evicted : Bool
deriving DecidableEq, Repr

/-- `_responses` is a JS `Map`, i.e. an insertion-ordered key/value list. -/
abbrev RespMap := List (JSStr × StoredResponse)

/-- JS `Map.prototype.set`: an existing key is updated in place (keeping
its position in insertion order), a new key is appended at the end. -/
def mapSet (m : RespMap) (k : JSStr) (v : StoredResponse) : RespMap :=
  match m with
  | [] => [(k, v)]
  | (k', v') :: rest =>
      if k' = k then (k', v) :: rest else (k', v') :: mapSet rest k v

/-- JS `Map.prototype.get` (`none` for a missing key). -/
def mapGet (m : RespMap) (k : JSStr) : Option StoredResponse :=
  match m with
  | [] => none
  | (k', v') :: rest => if k' = k then some v' else mapGet rest k

/-- The relevant observable state of an `nsIHttpChannel` for response-body
storage: whether it is an `nsIEncodedChannel` with `contentEncodings` and
`applyConversion` unset, and its `Content-Encoding` response header. -/
structure HttpChannelEnc where
  isEncodedChannel : Bool
  hasContentEncodings : Bool
  applyConversion : Bool
  contentEncodingHeader : JSStr
deriving DecidableEq, Repr

/-- The encodings recorded by `addResponseBody` for a channel.
`splitHeader` abstracts the platform regex split
`encodingHeader.split(/\s*\t*,\s*\t*/)`. -/
def channelEncodings (splitHeader : JSStr → List JSStr) (ch : HttpChannelEnc) :
    List JSStr :=
  if ch.isEncodedChannel && ch.hasContentEncodings && !ch.applyConversion then
    splitHeader ch.contentEncodingHeader
  else
    []

/-- `ResponseStorage` state: sizes are JS numbers, kept as integers. -/
structure ResponseStorage where
  totalSize : Int
  maxResponseSize : Int
  maxTotalSize : Int
  responses : RespMap
deriving DecidableEq, Repr

/-- `new ResponseStorage(maxTotalSize, maxResponseSize)`. -/
def ResponseStorage.mk0 (maxTotalSize maxResponseSize : Int) : ResponseStorage :=
  { totalSize := 0
    maxResponseSize := maxResponseSize
    maxTotalSize := maxTotalSize
    responses := [] }

/-- The eviction loop of `addResponseBody`: walk the map in insertion
order; evict the current entry (discard its bytes, mark it evicted,
subtract its length from the running total); stop as soon as the total is
strictly below the cap. Returns the updated map and total. -/
def evictLoop (entries : RespMap) (total maxTotal : Int) : RespMap × Int :=
  match entries with
  | [] => ([], total)
  | (k, r) :: rest =>
      let total' := total - r.body.length
      let r' : StoredResponse := { body := [], encodings := r.encodings, evicted := true }
      if total' < maxTotal then ((k, r') :: rest, total')
      else
        let (rest', t) := evictLoop rest total' maxTotal
        ((k, r') :: rest', t)

/-- `ResponseStorage.addResponseBody(request, httpChannel, body)`; the
request is identified by its `requestId`. -/
def addResponseBody (splitHeader : JSStr → List JSStr) (s : ResponseStorage)
    (requestId : JSStr) (httpChannel : HttpChannelEnc) (body : JSStr) :
    ResponseStorage :=
  if (body.length : Int) > s.maxResponseSize then
    { s with responses := mapSet s.responses requestId ⟨[], [], true⟩ }
  else
    let encodings := channelEncodings splitHeader httpChannel
    let responses := mapSet s.responses requestId ⟨body, encodings, false⟩
    let total := s.totalSize + body.length
    if total > s.maxTotalSize then
      let (responses', total') := evictLoop responses total s.maxTotalSize
      { s with responses := responses', totalSize := total' }
    else
      { s with responses := responses, totalSize := total }

/-- Result of `getBase64EncodedResponse`. The success shape is
`{base64body}` or `{base64body: '', evicted: true}`. -/
structure Base64Response where
  base64body : JSStr
  evicted : Bool
deriving DecidableEq, Repr

/-- The error thrown for an unknown request id. -/
inductive StorageError where
  | notFound
deriving DecidableEq, Repr

/-- `ResponseStorage.getBase64EncodedResponse(requestId)`. `convert`
abstracts the platform decompressor `convertString(s, encoding,
'uncompressed')`; `btoa` abstracts base64 encoding. -/
def getBase64EncodedResponse (convert : JSStr → JSStr → JSStr)
    (btoa : JSStr → JSStr) (s : ResponseStorage) (requestId : JSStr) :
    Except StorageError Base64Response :=
  match mapGet s.responses requestId with
  | none => .error .notFound
  | some response =>
      if response.evicted then
        .ok { base64body := [], evicted := true }
      else
        let result :=
          if response.encodings.length ≠ 0 then
            response.encodings.foldl (fun acc enc => convert acc enc) response.body
          else
            response.body
        .ok { base64body := btoa result, evicted := false }

/-- Bytes currently retained by the non-evicted entries of the map. -/
def retainedBytes (m : RespMap) : Int :=
  match m with
  | [] => 0
  | (_, r) :: rest => (if r.evicted then 0 else (r.body.length : Int)) + retainedBytes rest

/-- Total body bytes of all entries of the map. -/
def sumBody (m : RespMap) : Int :=
  match m with
  | [] => 0
  | (_, r) :: rest => (r.body.length : Int) + sumBody rest

/-- Marking one entry evicted, as the eviction loop does. -/
def evictEntry (kr : JSStr × StoredResponse) : JSStr × StoredResponse :=
  (kr.1, { body := [], encodings := kr.2.encodings, evicted := true })

/-- Well-formedness of a storage state, true of every state reachable from
`new ResponseStorage(...)`: evicted entries hold no bytes, the retained
bytes are accounted for by the running total, stay within the cap, and the
cap is non-negative. -/
def StorageWF (s : ResponseStorage) : Prop :=
  (∀ kr ∈ s.responses, kr.2.evicted = true → kr.2.body = []) ∧
  retainedBytes s.responses ≤ s.totalSize ∧
  retainedBytes s.responses ≤ s.maxTotalSize ∧
  0 ≤ s.maxTotalSize

instance (s : ResponseStorage) : Decidable (StorageWF s) := by
  unfold StorageWF
  infer_instance

/-! ## NetworkRequest identity and redirect lineage -/

/-- The code units of the literal id suffix `"redirect"`. -/
def redirectWord : JSStr := [114, 101, 100, 105, 114, 101, 99, 116]

/-- The identity-related fields set by the `NetworkRequest` constructor. -/
structure Exchange where
  requestId : JSStr
  navigationId : Option JSStr
  redirectedFromId : Option JSStr
  redirectedIndex : Nat
deriving DecidableEq, Repr

/-- The identity part of `new NetworkRequest(networkObserver, httpChannel,
redirectedFrom)`:

* `requestId` starts as `httpChannel.channelId + ''`;
* `navigationId` is the own `requestId` for a main-document channel and
  `undefined` otherwise;
* with a `redirectedFrom`, the redirect ordinal is incremented, the id
  gains the suffix `'-redirect' + ordinal` (code unit 45 is `'-'`), and
  `navigationId` is inherited from the predecessor. -/
def mkExchange (channelId : Nat) (isMainDocumentChannel : Bool)
    (redirectedFrom : Option Exchange) : Exchange :=
  let requestId := natToStr channelId
  let navigationId := if isMainDocumentChannel then some requestId else none
  match redirectedFrom with
  | none =>
      { requestId := requestId
        navigationId := navigationId
        redirectedFromId := none
        redirectedIndex := 0 }
  | some r =>
      let idx := r.redirectedIndex + 1
      { requestId := requestId ++ 45 :: redirectWord ++ natToStr idx
        navigationId := r.navigationId
        redirectedFromId := some r.requestId
        redirectedIndex := idx }

/-- Build the successive exchanges of a redirect chain starting at `e`:
each later element is constructed with the previous one as
`redirectedFrom`, from its own channel id and main-document flag. -/
def buildChain (e : Exchange) : List (Nat × Bool) → List Exchange
  | [] => [e]
  | (c, m) :: rest => e :: buildChain (mkExchange c m (some e)) rest

/-- The `i`-th member of the chain `buildChain e rest`. -/
def chainMember (e : Exchange) (rest : List (Nat × Bool)) (i : Nat) : Exchange :=
  match i with
  | 0 => e
  | i' + 1 =>
      match rest with
      | [] => e
      | (c, m) :: rest' => chainMember (mkExchange c m (some e)) rest' i'

/-- A whole redirect chain: first exchange from `(c₀, m₀)` with no
`redirectedFrom`, then one continuation per element of `rest`. -/
def redirectChain (c₀ : Nat) (m₀ : Bool) (rest : List (Nat × Bool)) :
    List Exchange :=
  buildChain (mkExchange c₀ m₀ none) rest

/-! ## NetworkRequest event machine

The event-relevant behaviour of one `NetworkRequest` (without a
`ResponseInterceptor` attached) under the notifications the platform can
deliver: stream-listener callbacks (`onDataAvailable`, `onStopRequest`),
observer notifications routed through `_channelToRequest`
(`http-on-examine-*` → `_sendOnResponse`, internal redirects, HSTS
upgrades). -/

/-- State of one `NetworkRequest`: its current `httpChannel` (identified
by a numeric channel identity), whether `_channelToRequest` still maps
that channel to this request, the `_sentOnResponse` idempotence flag, the
presence of `_pageNetwork` (fixed at construction), and
`_responseBodyChunks`. -/
structure NRState where
  channel : Nat
  mapped : Bool
  sentOnResponse : Bool
  hasPageNetwork : Bool
  responseBodyChunks : List JSStr
deriving DecidableEq, Repr

/-- Protocol events emitted to the `PageNetwork`. -/
inductive NREvent where
  | response
  | requestFinished
  | requestFailed
deriving DecidableEq, Repr

/-- Notifications the platform can deliver for the request's channels. -/
inductive NRNotif where
  | onDataAvailable (ch : Nat) (data : JSStr)
  | onExamineResponse (ch : Nat) (fromCache : Bool)
  | onStopRequest (ch : Nat) (status : Nat)
  | internalRedirect (oldCh newCh : Nat)
  | stsUpgrade (oldCh newCh : Nat)
deriving DecidableEq, Repr

/-- State right after the constructor ran for channel `c` (no redirect
origin): the channel is mapped, `_sentOnResponse` is false and
`_responseBodyChunks` is empty. -/
def initNR (c : Nat) (hasPageNetwork : Bool) : NRState :=
  { channel := c
    mapped := true
    sentOnResponse := false
    hasPageNetwork := hasPageNetwork
    responseBodyChunks := [] }

/-- `_sendOnResponseImpl` (equally `_sendOnResponse` with no interceptor):
a second call returns without emitting; the first sets the flag and emits
`response` when a `_pageNetwork` exists. -/
def sendOnResponseImpl (s : NRState) : NRState × List NREvent :=
  if s.sentOnResponse then (s, [])
  else
    let s₁ := { s with sentOnResponse := true }
    if s₁.hasPageNetwork then (s₁, [.response]) else (s₁, [])

/-- `_sendOnRequestFinishedImpl(httpChannel)`: emit `requestFinished` when
a `_pageNetwork` exists, then drop the channel from `_channelToRequest`. -/
def sendOnRequestFinishedImpl (s : NRState) : NRState × List NREvent :=
  ({ s with mapped := false },
   if s.hasPageNetwork then [.requestFinished] else [])

/-- `_sendOnRequestFailedImpl(error)`: emit `requestFailed` when a
`_pageNetwork` exists, then drop the channel from `_channelToRequest`. -/
def sendOnRequestFailedImpl (s : NRState) : NRState × List NREvent :=
  ({ s with mapped := false },
   if s.hasPageNetwork then [.requestFailed] else [])

/-- One notification delivered to the request (interceptor-free paths):

* `onDataAvailable` ignores foreign channels, sends `response` (guarded)
  and buffers the chunk;
* `onExamineResponse` reaches the request only through
  `_channelToRequest`, then `_sendOnResponse`;
* `onStopRequest` ignores foreign channels; on status 0 it sends
  `response` (guarded), then `requestFinished`; otherwise `requestFailed`;
  either way `_responseBodyChunks` is deleted;
* an internal redirect swaps the channel in place when the old channel is
  still mapped;
* an HSTS upgrade forges a 307 `response` through `_sendOnResponse` when
  the old channel is still mapped. -/
def stepNR (s : NRState) : NRNotif → NRState × List NREvent
  | .onDataAvailable ch data =>
      if ch = s.channel then
        let (s₁, es) := sendOnResponseImpl s
        ({ s₁ with responseBodyChunks := s₁.responseBodyChunks ++ [data] }, es)
      else (s, [])
  | .onExamineResponse ch _ =>
      if s.mapped = true ∧ ch = s.channel then sendOnResponseImpl s else (s, [])
  | .onStopRequest ch status =>
      if ch = s.channel then
        if status = 0 then
          let (s₁, es₁) := sendOnResponseImpl s
          let (s₂, es₂) := sendOnRequestFinishedImpl s₁
          ({ s₂ with responseBodyChunks := [] }, es₁ ++ es₂)
        else
          let (s₁, es₁) := sendOnRequestFailedImpl s
          ({ s₁ with responseBodyChunks := [] }, es₁)
      else (s, [])
  | .internalRedirect oldCh newCh =>
      if s.mapped = true ∧ s.channel = oldCh then
        ({ s with channel := newCh }, [])
      else (s, [])
  | .stsUpgrade oldCh _ =>
      if s.mapped = true ∧ s.channel = oldCh then sendOnResponseImpl s else (s, [])

/-- Deliver a list of notifications in order, collecting emitted events. -/
def runNR (s : NRState) : List NRNotif → NRState × List NREvent
  | [] => (s, [])
  | n :: ns =>
      ((runNR (stepNR s n).1 ns).1,
        (stepNR s n).2 ++ (runNR (stepNR s n).1 ns).2)

/-- No later notification touches channel `c` as a stream-listener call
(`onDataAvailable`/`onStopRequest`). -/
def chanQuiet (c : Nat) : List NRNotif → Bool
  | [] => true
  | .onDataAvailable ch _ :: rest => (ch ≠ c : Bool) && chanQuiet c rest
  | .onStopRequest ch _ :: rest => (ch ≠ c : Bool) && chanQuiet c rest
  | _ :: rest => chanQuiet c rest

/-- The `nsIStreamListener` contract per channel: after `onStopRequest`
for a channel, no further `onDataAvailable` or `onStopRequest` is
delivered for that channel. -/
def wfNotifs : List NRNotif → Bool
  | [] => true
  | .onStopRequest ch _ :: rest => chanQuiet ch rest && wfNotifs rest
  | _ :: rest => wfNotifs rest

/-- Number of `response` events in a trace. -/
def countResp : List NREvent → Nat
  | [] => 0
  | .response :: tr => countResp tr + 1
  | _ :: tr => countResp tr

/-- Is the event terminal (`requestFinished` or `requestFailed`)? -/
def isTerm : NREvent → Bool
  | .requestFinished => true
  | .requestFailed => true
  | .response => false

/-- Number of terminal events in a trace. -/
def countTerm : List NREvent → Nat
  | [] => 0
  | e :: tr => (if isTerm e then 1 else 0) + countTerm tr

/-- Does a `response` occur after a terminal event (scanning with a
"terminal seen" flag)? -/
def respAfterTerm : Bool → List NREvent → Bool
  | _, [] => false
  | seen, .response :: tr => seen || respAfterTerm seen tr
  | seen, e :: tr => respAfterTerm (seen || isTerm e) tr

/-- Does the trace contain a terminal event? -/
def hasTerm : List NREvent → Bool
  | [] => false
  | e :: tr => isTerm e || hasTerm tr

/-! ## Interception policy and the paused-request commands -/

/-- The configuration consulted by `_shouldIntercept` and
`channelIntercepted`: presence of a `_pageNetwork`, the per-target flag
`_requestInterceptionEnabled`, the browsing-context flag
`requestInterceptionEnabled`, and whether
`settings.onlineOverride === 'offline'`. -/
structure InterceptEnv where
  hasPageNetwork : Bool
  requestInterceptionEnabled : Bool
  contextRequestInterceptionEnabled : Bool
  onlineOverrideOffline : Bool
deriving DecidableEq, Repr

/-- `NetworkRequest._shouldIntercept()`, with its early returns in source
order. -/
def shouldIntercept (e : InterceptEnv) : Bool :=
  if !e.hasPageNetwork then false
  else if e.requestInterceptionEnabled then true
  else if e.contextRequestInterceptionEnabled then true
  else if e.onlineOverrideOffline then true
  else false

/-- What `channelIntercepted` does with an intercepted channel. -/
inductive InterceptedOutcome where
  /-- not `_expectingInterception`: delegate to the fall-through
  controller. -/
  | fallThrough
  /-- no `_pageNetwork` any more: `resume()` and forget. -/
  | resumeNoPageNetwork
  /-- forced-offline context: `abort(Cr.NS_ERROR_OFFLINE)`. -/
  | abortOffline
  /-- `_sendOnRequest(true)` and park in `_interceptedRequests`. -/
  | pausedForController
  /-- interception disabled meanwhile: `_sendOnRequest(false)` then
  `resume()`. -/
  | resumePassThrough
deriving DecidableEq, Repr

/-- `NetworkRequest.channelIntercepted(intercepted)`, as the outcome it
selects, with its guards in source order. -/
def channelIntercepted (expecting : Bool) (e : InterceptEnv) :
    InterceptedOutcome :=
  if !expecting then .fallThrough
  else if !e.hasPageNetwork then .resumeNoPageNetwork
  else if e.onlineOverrideOffline then .abortOffline
  else if shouldIntercept e then .pausedForController
  else .resumePassThrough

/-- The interception outcome the claim ascribes to the code: precedence
(a) per-target, (b) context, (c) offline, first true wins, so offline only
acts when neither interception flag is set. Stated from the claim's words
for comparison with `channelIntercepted`. -/
def claimedInterceptedOutcome (expecting : Bool) (e : InterceptEnv) :
    InterceptedOutcome :=
  if !expecting then .fallThrough
  else if !e.hasPageNetwork then .resumeNoPageNetwork
  else if e.requestInterceptionEnabled then .pausedForController
  else if e.contextRequestInterceptionEnabled then .pausedForController
  else if e.onlineOverrideOffline then .abortOffline
  else .resumePassThrough

/-- What `shouldPrepareForIntercept` decides (service-worker fall-through
omitted; `channelMatches` is `channel === this.httpChannel`). -/
inductive PrepareOutcome where
  /-- foreign channel: do nothing, return false. -/
  | notOurChannel
  /-- a redirect: never intercepted, no `request` event here. -/
  | redirectNotIntercepted
  /-- not intercepting: `_sendOnRequest(false)`, return false. -/
  | requestNotIntercepted
  /-- set `_expectingInterception`, return true. -/
  | willIntercept
deriving DecidableEq, Repr

/-- `NetworkRequest.shouldPrepareForIntercept(aURI, channel)` without the
service-worker fall-through branch. -/
def shouldPrepareForIntercept (channelMatches : Bool) (isRedirect : Bool)
    (e : InterceptEnv) : PrepareOutcome :=
  if !channelMatches then .notOurChannel
  else if isRedirect then .redirectNotIntercepted
  else if !shouldIntercept e then .requestNotIntercepted
  else .willIntercept

/-- The overrides recorded by `resume(url, method, headers, postData)` in
`_expectingResumedRequest` (applied later by
`_onInternalRedirectReady`). -/
structure ResumeOverrides where
  method : Option JSStr
  headers : Option (List (JSStr × JSStr))
  postData : Option JSStr
deriving DecidableEq, Repr

/-- A request parked in `PageNetwork._interceptedRequests`. -/
structure InterceptedRequest where
  requestId : JSStr
  expectingResumedRequest : Option ResumeOverrides
  hasInterceptedChannel : Bool
deriving DecidableEq, Repr

/-- The call `resume` makes on its `_interceptedChannel`. -/
inductive ResumeAction where
  | resetInterceptionWithURI (url : Option JSStr)
deriving DecidableEq, Repr

/-- `NetworkRequest.resume(url, method, headers, postData)`: record the
overrides, release the channel with `resetInterceptionWithURI`, clear
`_interceptedChannel`. -/
def resumeRequest (r : InterceptedRequest) (url : Option JSStr)
    (method : Option JSStr) (headers : Option (List (JSStr × JSStr)))
    (postData : Option JSStr) : InterceptedRequest × ResumeAction :=
  ({ r with
      expectingResumedRequest := some ⟨method, headers, postData⟩
      hasInterceptedChannel := false },
   .resetInterceptionWithURI url)

/-- The interception-relevant state of one `PageNetwork`. -/
structure PageNetworkState where
  requestInterceptionEnabled : Bool
  interceptedRequests : List (JSStr × InterceptedRequest)
deriving Repr

/-- `PageNetwork.disableRequestInterception()`: clear the flag, `resume()`
(no arguments) every parked request, clear the map. Returns the new state
and the resumed requests with their channel actions. -/
def disableRequestInterception (pn : PageNetworkState) :
    PageNetworkState × List (InterceptedRequest × ResumeAction) :=
  ({ pn with requestInterceptionEnabled := false, interceptedRequests := [] },
   pn.interceptedRequests.map (fun kv => resumeRequest kv.2 none none none none))

/-! ## abort and the error map -/

/-- The distinct `Cr.NS_ERROR_*` transport failure codes used by the
module. -/
inductive NsError where
  | NS_ERROR_ABORT
  | NS_ERROR_PORT_ACCESS_NOT_ALLOWED
  | NS_ERROR_UNKNOWN_HOST
  | NS_ERROR_FAILURE
  | NS_ERROR_NET_INTERRUPT
  | NS_ERROR_CONNECTION_REFUSED
  | NS_ERROR_NET_RESET
  | NS_ERROR_OFFLINE
  | NS_ERROR_NET_TIMEOUT
deriving DecidableEq, Repr

/-- Code units of an ASCII literal. -/
def strOf (s : String) : JSStr :=
  s.toList.map Char.toNat

/-- `errorMap`: the controller's symbolic error names (as code-unit
strings) and their transport errors, in source order. -/
def errorMap : List (JSStr × NsError) :=
  [ (strOf "aborted", .NS_ERROR_ABORT)
  , (strOf "accessdenied", .NS_ERROR_PORT_ACCESS_NOT_ALLOWED)
  , (strOf "addressunreachable", .NS_ERROR_UNKNOWN_HOST)
  , (strOf "blockedbyclient", .NS_ERROR_FAILURE)
  , (strOf "blockedbyresponse", .NS_ERROR_FAILURE)
  , (strOf "connectionaborted", .NS_ERROR_NET_INTERRUPT)
  , (strOf "connectionclosed", .NS_ERROR_FAILURE)
  , (strOf "connectionfailed", .NS_ERROR_FAILURE)
  , (strOf "connectionrefused", .NS_ERROR_CONNECTION_REFUSED)
  , (strOf "connectionreset", .NS_ERROR_NET_RESET)
  , (strOf "internetdisconnected", .NS_ERROR_OFFLINE)
  , (strOf "namenotresolved", .NS_ERROR_UNKNOWN_HOST)
  , (strOf "timedout", .NS_ERROR_NET_TIMEOUT)
  , (strOf "failed", .NS_ERROR_FAILURE)
  ]

/-- JS property lookup on the `errorMap` object literal. -/
def errorMapGet (code : JSStr) : Option NsError :=
  errorMap.lookup code

/-- The call `abort`/`_failWithErrorCode` make on the intercepted
channel. -/
inductive CancelAction where
  | cancelInterception (error : NsError)
deriving DecidableEq, Repr

/-- `NetworkRequest.abort(errorCode)`: `errorMap[errorCode] ||
Cr.NS_ERROR_FAILURE`, then `_failWithErrorCode`, which cancels the
interception and clears `_interceptedChannel`. -/
def abortRequest (r : InterceptedRequest) (errorCode : JSStr) :
    InterceptedRequest × CancelAction :=
  ({ r with hasInterceptedChannel := false },
   .cancelInterception ((errorMapGet errorCode).getD .NS_ERROR_FAILURE))

/-! ## fulfill -/

/-- `ResponseInterceptor._interceptedResponse` (as far as `fulfill` reads
it): the upstream response fetched by `interceptResponse`. -/
structure InterceptedResponseData where
  status : Nat
  statusText : JSStr
  headers : List (JSStr × JSStr)
  body : JSStr
deriving DecidableEq, Repr

/-- The calls `fulfill` makes on its `_interceptedChannel` (plus the
cookie-store side effect), in order. -/
inductive FulfillAction where
  | synthesizeStatus (status : Option Nat) (statusText : Option JSStr)
  | synthesizeHeader (name value : JSStr)
  | setCookieFromHttp (value : JSStr)
  | startSynthesizedResponse (body : JSStr)
  | finishSynthesizedResponse
deriving DecidableEq, Repr

/-- The exception raised by `for (const header of headers)` when `headers`
is `undefined`. -/
inductive FulfillError where
  | headersNotIterable
deriving DecidableEq, Repr

/-- ASCII `toLowerCase` on a code unit. -/
def jsLowerUnit (c : Nat) : Nat :=
  if 65 ≤ c ∧ c ≤ 90 then c + 32 else c

/-- `String.prototype.toLowerCase` (ASCII range). -/
def jsLower (s : JSStr) : JSStr :=
  s.map jsLowerUnit

/-- JS `a || b` for an optional number (`0` and `undefined` are falsy). -/
def jsOrNat (a : Option Nat) (b : Nat) : Nat :=
  match a with
  | some v => if v ≠ 0 then v else b
  | none => b

/-- JS `a || b` for an optional string (`''` and `undefined` are falsy). -/
def jsOrStr (a : Option JSStr) (b : JSStr) : JSStr :=
  match a with
  | some s => if s ≠ [] then s else b
  | none => b

/-- The per-header synthesis of `fulfill`: `synthesizeHeader`, plus the
cookie-store side effect for a `set-cookie` header. -/
def headerSynthActions (hs : List (JSStr × JSStr)) : List FulfillAction :=
  match hs with
  | [] => []
  | h :: rest =>
      .synthesizeHeader h.1 h.2 ::
        ((if jsLower h.1 = strOf "set-cookie" then [.setCookieFromHttp h.2] else []) ++
          headerSynthActions rest)

/-- `base64body ? atob(base64body) : ''` (an empty or absent base64 body
is falsy). -/
def fulfillBody (atob : JSStr → JSStr) (base64body : Option JSStr) : JSStr :=
  match base64body with
  | some b => if b ≠ [] then atob b else []
  | none => []

/-- `NetworkRequest.fulfill(status, statusText, headers, base64body)` with
`interceptedResponse = this._responseInterceptor?._interceptedResponse`:
the sequence of synthesis calls it performs, and whether it completes or
throws iterating an absent headers list. `atob` abstracts base64
decoding. -/
def fulfill (atob : JSStr → JSStr)
    (interceptedResponse : Option InterceptedResponseData)
    (status : Option Nat) (statusText : Option JSStr)
    (headers : Option (List (JSStr × JSStr))) (base64body : Option JSStr) :
    List FulfillAction × Except FulfillError Unit :=
  let body := fulfillBody atob base64body
  let status := match interceptedResponse with
    | some o => some (jsOrNat status o.status)
    | none => status
  let statusText := match interceptedResponse with
    | some o => some (jsOrStr statusText o.statusText)
    | none => statusText
  let headers := match interceptedResponse with
    | some o => some (headers.getD o.headers)
    | none => headers
  let acts := [FulfillAction.synthesizeStatus status statusText]
  match headers with
  | none => (acts, .error .headersNotIterable)
  | some hs =>
      (acts ++ headerSynthActions hs ++
        [.startSynthesizedResponse body, .finishSynthesizedResponse], .ok ())

/-! ## Lemmas about the response map -/

theorem mapGet_mapSet_self (m : RespMap) (k : JSStr) (v : StoredResponse) :
    mapGet (mapSet m k v) k = some v := by
  induction m with
  | nil => simp [mapSet, mapGet]
  | cons kv rest ih =>
    obtain ⟨k', v'⟩ := kv
    by_cases h : k' = k
    · simp [mapSet, mapGet, h]
    · simp [mapSet, mapGet, h, ih]

theorem mem_mapSet (m : RespMap) (k : JSStr) (v : StoredResponse) :
    ∀ kr ∈ mapSet m k v, kr ∈ m ∨ kr = (k, v) := by
  induction m with
  | nil => simp [mapSet]
  | cons kv rest ih =>
    obtain ⟨k', v'⟩ := kv
    intro kr hkr
    by_cases h : k' = k
    · simp only [mapSet, if_pos h] at hkr
      rcases List.mem_cons.1 hkr with h' | h'
      · right
        rw [h', h]
      · left
        exact List.mem_cons_of_mem _ h'
    · simp only [mapSet, if_neg h] at hkr
      rcases List.mem_cons.1 hkr with h' | h'
      · left
        rw [h']
        exact List.mem_cons_self _ _
      · rcases ih kr h' with h'' | h''
        · exact Or.inl (List.mem_cons_of_mem _ h'')
        · exact Or.inr h''

theorem mapSet_ne_nil (m : RespMap) (k : JSStr) (v : StoredResponse) :
    mapSet m k v ≠ [] := by
  cases m with
  | nil => simp [mapSet]
  | cons kv rest =>
    obtain ⟨k', v'⟩ := kv
    by_cases h : k' = k <;> simp [mapSet, h]

theorem retainedBytes_nonneg (m : RespMap) : 0 ≤ retainedBytes m := by
  induction m with
  | nil => simp [retainedBytes]
  | cons kv rest ih =>
    simp only [retainedBytes]
    have : (0 : Int) ≤ (if kv.2.evicted then 0 else (kv.2.body.length : Int)) := by
      split <;> simp
    omega

theorem sumBody_nonneg (m : RespMap) : 0 ≤ sumBody m := by
  induction m with
  | nil => simp [sumBody]
  | cons kv rest ih =>
    simp only [sumBody]
    have : (0 : Int) ≤ (kv.2.body.length : Int) := by simp
    omega

theorem retainedBytes_append (a b : RespMap) :
    retainedBytes (a ++ b) = retainedBytes a + retainedBytes b := by
  induction a with
  | nil => simp [retainedBytes]
  | cons kv rest ih =>
    simp only [List.cons_append, retainedBytes, List.append_eq]
    rw [ih]
    omega

theorem retainedBytes_mapSet_le (m : RespMap) (k : JSStr) (v : StoredResponse) :
    retainedBytes (mapSet m k v) ≤
      retainedBytes m + (if v.evicted then 0 else (v.body.length : Int)) := by
  induction m with
  | nil =>
    simp only [mapSet, retainedBytes]
    omega
  | cons kv rest ih =>
    obtain ⟨k', v'⟩ := kv
    by_cases h : k' = k
    · simp only [mapSet, if_pos h, retainedBytes]
      have h1 : (0 : Int) ≤ (if v'.evicted then 0 else (v'.body.length : Int)) := by
        split <;> simp
      omega
    · simp only [mapSet, if_neg h, retainedBytes]
      omega

theorem sumBody_eq_retained (m : RespMap)
    (h : ∀ kr ∈ m, kr.2.evicted = true → kr.2.body = []) :
    sumBody m = retainedBytes m := by
  induction m with
  | nil => rfl
  | cons kv rest ih =>
    simp only [sumBody, retainedBytes]
    rw [ih (fun kr hkr => h kr (List.mem_cons_of_mem _ hkr))]
    cases he : kv.2.evicted
    · simp
    · have := h kv (List.mem_cons_self _ _) he
      simp [this]

theorem retainedBytes_evicted (l : RespMap) :
    retainedBytes (l.map evictEntry) = 0 := by
  induction l with
  | nil => rfl
  | cons kv rest ih => simp [retainedBytes, evictEntry, ih]

/-! ## The eviction loop -/

theorem evictLoop_spec (entries : RespMap) :
    ∀ total maxTotal : Int, ∃ k,
      k ≤ entries.length ∧ (entries = [] ∨ 1 ≤ k) ∧
      evictLoop entries total maxTotal =
        ((entries.take k).map evictEntry ++ entries.drop k,
          total - sumBody (entries.take k)) ∧
      (total - sumBody (entries.take k) < maxTotal ∨ k = entries.length) ∧
      (∀ j, 1 ≤ j → j < k → maxTotal ≤ total - sumBody (entries.take j)) := by
  induction entries with
  | nil =>
    intro total maxTotal
    refine ⟨0, by simp, Or.inl rfl, ?_, Or.inr rfl, by omega⟩
    simp [evictLoop, sumBody]
  | cons kv rest ih =>
    intro total maxTotal
    obtain ⟨k, r⟩ := kv
    by_cases hbreak : total - r.body.length < maxTotal
    · refine ⟨1, by simp, Or.inr le_rfl, ?_, ?_, by omega⟩
      · simp [evictLoop, hbreak, sumBody, evictEntry]
      · left
        simpa [sumBody] using hbreak
    · obtain ⟨k', hk'len, _, heq, hstop, hmin⟩ := ih (total - r.body.length) maxTotal
      refine ⟨k' + 1, by simpa using hk'len, Or.inr (by omega), ?_, ?_, ?_⟩
      · simp only [evictLoop, if_neg hbreak, heq, List.take_succ_cons,
          List.map_cons, List.drop_succ_cons, List.cons_append, sumBody,
          evictEntry, Prod.mk.injEq]
        exact ⟨by trivial, by omega⟩
      · rcases hstop with h | h
        · left
          simp only [List.take_succ_cons, sumBody]
          omega
        · right
          simp [h]
      · intro j hj1 hjk
        match j, hj1 with
        | 1, _ =>
          simp only [List.take_succ_cons, List.take_zero, sumBody]
          omega
        | (j' + 2), _ =>
          have := hmin (j' + 1) (by omega) (by omega)
          simp only [List.take_succ_cons, sumBody]
          omega

/-! ## C6: oversized bodies are stored pre-evicted -/

/-- **C6.** If `body.length` exceeds the per-response cap,
`addResponseBody` stores an evicted marker with an empty body for that
exchange and returns immediately: the running total is unchanged, the
stored entry retains no bytes, and no other entry changes. -/
theorem claim_C6 (split : JSStr → List JSStr) (s : ResponseStorage)
    (requestId : JSStr) (ch : HttpChannelEnc) (body : JSStr)
    (h : (body.length : Int) > s.maxResponseSize) :
    addResponseBody split s requestId ch body =
      { s with responses := mapSet s.responses requestId ⟨[], [], true⟩ } ∧
    (addResponseBody split s requestId ch body).totalSize = s.totalSize ∧
    mapGet (addResponseBody split s requestId ch body).responses requestId =
      some ⟨[], [], true⟩ ∧
    retainedBytes (addResponseBody split s requestId ch body).responses ≤
      retainedBytes s.responses := by
  have heq : addResponseBody split s requestId ch body =
      { s with responses := mapSet s.responses requestId ⟨[], [], true⟩ } := by
    simp [addResponseBody, h]
  refine ⟨heq, by rw [heq], by rw [heq]; exact mapGet_mapSet_self _ _ _, ?_⟩
  rw [heq]
  have := retainedBytes_mapSet_le s.responses requestId ⟨[], [], true⟩
  simpa using this

/-- Witness for C6 at a concrete oversized body. -/
theorem claim_C6_witness :
    addResponseBody (fun h => [h]) (ResponseStorage.mk0 100 2) [7]
        ⟨false, false, false, []⟩ [1, 2, 3] =
      { ResponseStorage.mk0 100 2 with
          responses := mapSet (ResponseStorage.mk0 100 2).responses [7] ⟨[], [], true⟩ } ∧
    (addResponseBody (fun h => [h]) (ResponseStorage.mk0 100 2) [7]
        ⟨false, false, false, []⟩ [1, 2, 3]).totalSize =
      (ResponseStorage.mk0 100 2).totalSize ∧
    mapGet (addResponseBody (fun h => [h]) (ResponseStorage.mk0 100 2) [7]
        ⟨false, false, false, []⟩ [1, 2, 3]).responses [7] = some ⟨[], [], true⟩ ∧
    retainedBytes (addResponseBody (fun h => [h]) (ResponseStorage.mk0 100 2) [7]
        ⟨false, false, false, []⟩ [1, 2, 3]).responses ≤
      retainedBytes (ResponseStorage.mk0 100 2).responses :=
  claim_C6 (fun h => [h]) (ResponseStorage.mk0 100 2) [7]
    ⟨false, false, false, []⟩ [1, 2, 3] (by decide)

/-! ## C7: round trip through the store -/

/-- **C7.** For a body within the per-response cap, when the insertion
does not push the running total over the per-target cap (so no eviction
occurs), `getBase64EncodedResponse` after `addResponseBody` returns
exactly the stored bytes with the declared transport encodings reversed,
base64-encoded. -/
theorem claim_C7 (split : JSStr → List JSStr) (convert : JSStr → JSStr → JSStr)
    (btoa : JSStr → JSStr) (s : ResponseStorage) (requestId : JSStr)
    (ch : HttpChannelEnc) (body : JSStr)
    (h₁ : (body.length : Int) ≤ s.maxResponseSize)
    (h₂ : s.totalSize + body.length ≤ s.maxTotalSize) :
    getBase64EncodedResponse convert btoa
        (addResponseBody split s requestId ch body) requestId =
      .ok ⟨btoa ((channelEncodings split ch).foldl
        (fun acc enc => convert acc enc) body), false⟩ := by
  have hnot : ¬((body.length : Int) > s.maxResponseSize) := by omega
  have hnot2 : ¬(s.totalSize + (body.length : Int) > s.maxTotalSize) := by omega
  have hadd : addResponseBody split s requestId ch body =
      { s with
          responses := mapSet s.responses requestId
            ⟨body, channelEncodings split ch, false⟩
          totalSize := s.totalSize + body.length } := by
    simp [addResponseBody, hnot, hnot2]
  rw [hadd]
  by_cases henc : (channelEncodings split ch).length ≠ 0
  · simp [getBase64EncodedResponse, mapGet_mapSet_self, henc]
  · have hempty : channelEncodings split ch = [] :=
      List.length_eq_zero.1 (by omega)
    simp [getBase64EncodedResponse, mapGet_mapSet_self, hempty]

/-- Witness for C7 at a concrete small body. -/
theorem claim_C7_witness :
    getBase64EncodedResponse (fun acc _ => acc) (fun b => b)
        (addResponseBody (fun h => [h]) (ResponseStorage.mk0 100 10) [7]
          ⟨false, false, false, []⟩ [1, 2]) [7] =
      .ok ⟨(fun b => b) ((channelEncodings (fun h => [h])
          ⟨false, false, false, []⟩).foldl
        (fun acc enc => (fun a _ => a) acc enc) [1, 2]), false⟩ :=
  claim_C7 (fun h => [h]) (fun acc _ => acc) (fun b => b)
    (ResponseStorage.mk0 100 10) [7] ⟨false, false, false, []⟩ [1, 2]
    (by decide) (by decide)

/-! ## C8: getResponseBody result shape -/

/-- **C8.** `getBase64EncodedResponse` fails with the not-found error
exactly when the exchange id has no stored entry; an evicted entry yields
`{evicted: true, body: ''}` independently of the decoder (so no decoding
is attempted); otherwise the recorded transport encodings are reversed in
their stored order and the result is base64-encoded. -/
theorem claim_C8 (convert : JSStr → JSStr → JSStr) (btoa : JSStr → JSStr)
    (s : ResponseStorage) (requestId : JSStr) :
    (mapGet s.responses requestId = none ↔
      getBase64EncodedResponse convert btoa s requestId = .error .notFound) ∧
    (∀ r, mapGet s.responses requestId = some r → r.evicted = true →
      ∀ (convert' : JSStr → JSStr → JSStr) (btoa' : JSStr → JSStr),
        getBase64EncodedResponse convert' btoa' s requestId =
          .ok ⟨[], true⟩) ∧
    (∀ r, mapGet s.responses requestId = some r → r.evicted = false →
      getBase64EncodedResponse convert btoa s requestId =
        .ok ⟨btoa (r.encodings.foldl (fun acc enc => convert acc enc) r.body),
          false⟩) := by
  refine ⟨?_, ?_, ?_⟩
  · cases h : mapGet s.responses requestId with
    | none => simp [getBase64EncodedResponse, h]
    | some r =>
      simp only [reduceCtorEq, false_iff]
      cases he : r.evicted <;> simp [getBase64EncodedResponse, h, he]
  · intro r hr he convert' btoa'
    simp [getBase64EncodedResponse, hr, he]
  · intro r hr he
    by_cases henc : r.encodings.length ≠ 0
    · simp [getBase64EncodedResponse, hr, he, henc]
    · have hempty : r.encodings = [] := List.length_eq_zero.1 (by omega)
      simp [getBase64EncodedResponse, hr, he, hempty]

/-- Witness for C8 on a concrete store holding one evicted and one live
entry. -/
theorem claim_C8_witness :
    (mapGet ({ ResponseStorage.mk0 100 10 with
        responses := [([1], ⟨[], [], true⟩), ([2], ⟨[5], [], false⟩)] }
          : ResponseStorage).responses [1] = some ⟨[], [], true⟩) ∧
    getBase64EncodedResponse (fun acc _ => acc) (fun b => b)
        ({ ResponseStorage.mk0 100 10 with
          responses := [([1], ⟨[], [], true⟩), ([2], ⟨[5], [], false⟩)] }) [1] =
      .ok ⟨[], true⟩ := by
  refine ⟨by decide, ?_⟩
  exact (claim_C8 (fun acc _ => acc) (fun b => b) _ [1]).2.1
    ⟨[], [], true⟩ (by decide) (by decide) _ _

/-! ## C5: disabling interception resumes everything -/

/-- **C5.** `disableRequestInterception` clears the per-target flag,
empties the awaiting-decision map, and resumes every parked exchange with
no overrides at all (`resetInterceptionWithURI(null)` and an
all-`undefined` `_expectingResumedRequest`), preserving their ids. -/
theorem claim_C5 (pn : PageNetworkState) :
    (disableRequestInterception pn).1.requestInterceptionEnabled = false ∧
    (disableRequestInterception pn).1.interceptedRequests = [] ∧
    (disableRequestInterception pn).2.length = pn.interceptedRequests.length ∧
    ((disableRequestInterception pn).2.map (fun ra => ra.1.requestId) =
      pn.interceptedRequests.map (fun kv => kv.2.requestId)) ∧
    (disableRequestInterception pn).2.all (fun ra =>
      decide (ra.1.expectingResumedRequest = some ⟨none, none, none⟩ ∧
        ra.1.hasInterceptedChannel = false ∧
        ra.2 = ResumeAction.resetInterceptionWithURI none)) = true := by
  refine ⟨rfl, rfl, by simp [disableRequestInterception], ?_, ?_⟩
  · simp [disableRequestInterception, resumeRequest, List.map_map]
  · simp only [disableRequestInterception]
    refine List.all_eq_true.2 ?_
    intro ra hra
    obtain ⟨kv, _, rfl⟩ := List.mem_map.1 hra
    simp [resumeRequest]

/-! ## C9: abort error mapping -/

/-- **C9.** `abort(errorCode)` always cancels the interception: a symbolic
name missing from `errorMap` falls back to the generic
`NS_ERROR_FAILURE` (the command is not rejected), each known name maps to
its specific transport error, and a failing stop notification then emits
exactly `requestFailed`. -/
theorem claim_C9 :
    (∀ (r : InterceptedRequest) (errorCode : JSStr),
      errorMapGet errorCode = none →
      abortRequest r errorCode =
        ({ r with hasInterceptedChannel := false },
          .cancelInterception .NS_ERROR_FAILURE)) ∧
    errorMap.all (fun p => decide (errorMapGet p.1 = some p.2)) = true ∧
    (∀ (r : InterceptedRequest) (p : JSStr × NsError), p ∈ errorMap →
      (abortRequest r p.1).2 = .cancelInterception p.2) ∧
    (∀ (c status : Nat), status ≠ 0 →
      (stepNR (initNR c true) (.onStopRequest c status)).2 =
        [.requestFailed]) := by
  have hall : errorMap.all (fun p => decide (errorMapGet p.1 = some p.2)) = true := by
    decide
  refine ⟨?_, hall, ?_, ?_⟩
  · intro r errorCode h
    simp [abortRequest, h]
  · intro r p hp
    have := of_decide_eq_true (List.all_eq_true.1 hall p hp)
    simp [abortRequest, this]
  · intro c status h
    simp [stepNR, initNR, sendOnRequestFailedImpl, h]

/-- Witness for C9 at an unknown symbolic error name. -/
theorem claim_C9_witness :
    (errorMapGet (strOf "bogus") = none) ∧
    abortRequest ⟨[3], none, true⟩ (strOf "bogus") =
      ({ (⟨[3], none, true⟩ : InterceptedRequest) with
          hasInterceptedChannel := false },
        .cancelInterception .NS_ERROR_FAILURE) ∧
    (stepNR (initNR 5 true) (.onStopRequest 5 2)).2 = [.requestFailed] :=
  ⟨by decide, claim_C9.1 ⟨[3], none, true⟩ (strOf "bogus") (by decide),
    claim_C9.2.2.2 5 2 (by decide)⟩

/-! ## C4: interception decision precedence -/

/-- **C4 counterexample.** With per-target interception enabled *and* the
context forced offline, the claimed first-true-wins precedence would pause
the exchange for the controller, but `channelIntercepted` checks offline
first and aborts it. -/
theorem claim_C4_counterexample :
    channelIntercepted true ⟨true, true, false, true⟩ =
      InterceptedOutcome.abortOffline ∧
    claimedInterceptedOutcome true ⟨true, true, false, true⟩ =
      InterceptedOutcome.pausedForController ∧
    InterceptedOutcome.abortOffline ≠ InterceptedOutcome.pausedForController := by
  decide

/-- **C4 (amended).** `_shouldIntercept` is the disjunction of (a) the
per-target flag, (b) the context flag and (c) forced offline (given a
page network), evaluated in that order; but in `channelIntercepted` the
forced-offline abort takes precedence over (a)/(b): offline always aborts
with the offline error, otherwise (a) or (b) pause the exchange for the
controller; when none of the three holds the `request` event is sent with
`isIntercepted = false` and the exchange streams normally; and the
aborted exchange emits `requestFailed` only, never `response`. -/
theorem claim_C4 :
    (∀ e : InterceptEnv, shouldIntercept e =
      (e.hasPageNetwork &&
        (e.requestInterceptionEnabled || e.contextRequestInterceptionEnabled ||
          e.onlineOverrideOffline))) ∧
    (∀ e : InterceptEnv, e.hasPageNetwork = true → e.onlineOverrideOffline = true →
      channelIntercepted true e = .abortOffline) ∧
    (∀ e : InterceptEnv, e.hasPageNetwork = true → e.onlineOverrideOffline = false →
      (e.requestInterceptionEnabled || e.contextRequestInterceptionEnabled) = true →
      channelIntercepted true e = .pausedForController) ∧
    (∀ e : InterceptEnv, shouldIntercept e = false →
      shouldPrepareForIntercept true false e = .requestNotIntercepted) ∧
    (∀ c status : Nat, status ≠ 0 →
      (stepNR (initNR c true) (.onStopRequest c status)).2 = [.requestFailed] ∧
      countResp (stepNR (initNR c true) (.onStopRequest c status)).2 = 0) := by
  refine ⟨?_, ?_, ?_, ?_, ?_⟩
  · intro e
    obtain ⟨p, a, b, o⟩ := e
    cases p <;> cases a <;> cases b <;> cases o <;> rfl
  · intro e h1 h2
    obtain ⟨p, a, b, o⟩ := e
    simp only at h1 h2
    subst h1
    subst h2
    simp [channelIntercepted]
  · intro e h1 h2 h3
    obtain ⟨p, a, b, o⟩ := e
    simp only at h1 h2 h3
    subst h1
    subst h2
    cases a <;> cases b <;> simp_all [channelIntercepted, shouldIntercept]
  · intro e h
    simp [shouldPrepareForIntercept, h]
  · intro c status h
    constructor <;> simp [stepNR, initNR, sendOnRequestFailedImpl, h, countResp]

/-- Witness for C4: a forced-offline context aborts even with per-target
interception enabled, and a pure per-target configuration pauses. -/
theorem claim_C4_witness :
    channelIntercepted true ⟨true, false, false, true⟩ =
      InterceptedOutcome.abortOffline ∧
    channelIntercepted true ⟨true, true, false, false⟩ =
      InterceptedOutcome.pausedForController ∧
    shouldPrepareForIntercept true false ⟨true, false, false, false⟩ =
      PrepareOutcome.requestNotIntercepted :=
  ⟨claim_C4.2.1 ⟨true, false, false, true⟩ rfl rfl,
    claim_C4.2.2.1 ⟨true, true, false, false⟩ rfl rfl rfl,
    claim_C4.2.2.2.1 ⟨true, false, false, false⟩ (by decide)⟩

/-! ## C10: fulfill headers precondition -/

/-- **C10 counterexample.** Fulfilling with no headers and no previously
fetched upstream response does throw while iterating the absent headers
list, but not before synthesizing anything: the status line has already
been synthesized on the intercepted channel. -/
theorem claim_C10_counterexample :
    fulfill (fun b => b) none (some 200) none none none =
      ([.synthesizeStatus (some 200) none], .error .headersNotIterable) ∧
    ([FulfillAction.synthesizeStatus (some 200) none] : List FulfillAction) ≠
      ([] : List FulfillAction) :=
  ⟨rfl, by decide⟩

/-- **C10 (amended).** `fulfill` iterates the headers list
unconditionally: with headers absent and no stored upstream response it
fails with an exception after synthesizing only the status line — no
header, body start or finish synthesis happens; with a stored upstream
response, absent headers fall back to that response's headers and the
synthesis runs to completion. -/
theorem claim_C10 :
    (∀ (atob : JSStr → JSStr) (status : Option Nat) (statusText : Option JSStr)
        (base64body : Option JSStr),
      fulfill atob none status statusText none base64body =
        ([.synthesizeStatus status statusText], .error .headersNotIterable)) ∧
    (∀ (atob : JSStr → JSStr) (o : InterceptedResponseData) (status : Option Nat)
        (statusText : Option JSStr) (base64body : Option JSStr),
      fulfill atob (some o) status statusText none base64body =
        (FulfillAction.synthesizeStatus (some (jsOrNat status o.status))
            (some (jsOrStr statusText o.statusText)) ::
          (headerSynthActions o.headers ++
            [.startSynthesizedResponse (fulfillBody atob base64body),
              .finishSynthesizedResponse]),
          .ok ())) := by
  constructor
  · intro atob status statusText base64body
    rfl
  · intro atob o status statusText base64body
    rfl

/-! ## Trace lemmas for the NetworkRequest event machine -/

theorem countResp_append (a b : List NREvent) :
    countResp (a ++ b) = countResp a + countResp b := by
  induction a with
  | nil => simp [countResp]
  | cons e tr ih => cases e <;> simp [countResp, ih] <;> omega

theorem countTerm_append (a b : List NREvent) :
    countTerm (a ++ b) = countTerm a + countTerm b := by
  induction a with
  | nil => simp [countTerm]
  | cons e tr ih => cases e <;> simp [countTerm, isTerm, ih] <;> omega

theorem countTerm_zero_of_no_term (tr : List NREvent) (h : hasTerm tr = false) :
    countTerm tr = 0 := by
  induction tr with
  | nil => rfl
  | cons e tr ih =>
    cases e with
    | response =>
      simp only [hasTerm, isTerm, Bool.false_or] at h
      simp [countTerm, isTerm, ih h]
    | requestFinished => simp [hasTerm, isTerm] at h
    | requestFailed => simp [hasTerm, isTerm] at h

theorem respAfterTerm_append_no_term (a b : List NREvent)
    (h : hasTerm a = false) :
    respAfterTerm false (a ++ b) =
      (respAfterTerm false a || respAfterTerm false b) := by
  induction a with
  | nil => simp [respAfterTerm]
  | cons e tr ih =>
    cases e with
    | response =>
      simp only [hasTerm, isTerm, Bool.false_or] at h
      simp only [List.cons_append, respAfterTerm, Bool.false_or]
      exact ih h
    | requestFinished => simp [hasTerm, isTerm] at h
    | requestFailed => simp [hasTerm, isTerm] at h

theorem wfNotifs_tail (n : NRNotif) (rest : List NRNotif)
    (h : wfNotifs (n :: rest) = true) : wfNotifs rest = true := by
  cases n with
  | onStopRequest ch status =>
    simp only [wfNotifs, Bool.and_eq_true] at h
    exact h.2
  | onDataAvailable ch data => exact h
  | onExamineResponse ch fromCache => exact h
  | internalRedirect oldCh newCh => exact h
  | stsUpgrade oldCh newCh => exact h

/-- Per-notification facts: the `response` count is absorbed into the
`_sentOnResponse` flag; at most one terminal event is emitted, never
before a `response` of the same step; and a terminal event can only come
from `onStopRequest` on the current channel, which also unmaps the
channel and leaves it unchanged. -/
theorem stepNR_facts (s : NRState) (n : NRNotif) :
    countResp (stepNR s n).2 + (if s.sentOnResponse then 1 else 0) ≤
      (if (stepNR s n).1.sentOnResponse then 1 else 0) ∧
    countTerm (stepNR s n).2 ≤ 1 ∧
    respAfterTerm false (stepNR s n).2 = false ∧
    (hasTerm (stepNR s n).2 = true →
      (stepNR s n).1.mapped = false ∧ (stepNR s n).1.channel = s.channel ∧
      ∃ st, n = NRNotif.onStopRequest s.channel st) := by
  cases n with
  | onDataAvailable ch data =>
    by_cases hch : ch = s.channel
    · by_cases hf : s.sentOnResponse <;> by_cases hp : s.hasPageNetwork = true <;>
        simp [stepNR, sendOnResponseImpl, hch, hf, hp, countResp, countTerm,
          respAfterTerm, hasTerm, isTerm]
    · simp [stepNR, hch, countResp, countTerm, respAfterTerm, hasTerm] <;>
        (try split) <;> omega
  | onExamineResponse ch fromCache =>
    by_cases hc : s.mapped = true ∧ ch = s.channel
    · by_cases hf : s.sentOnResponse <;> by_cases hp : s.hasPageNetwork = true <;>
        simp [stepNR, sendOnResponseImpl, hc, hf, hp, countResp, countTerm,
          respAfterTerm, hasTerm, isTerm] <;> (try split) <;> omega
    · simp [stepNR, hc, countResp, countTerm, respAfterTerm, hasTerm] <;>
        (try split) <;> omega
  | onStopRequest ch status =>
    by_cases hch : ch = s.channel
    · by_cases hst : status = 0
      · by_cases hf : s.sentOnResponse <;> by_cases hp : s.hasPageNetwork = true <;>
          simp [stepNR, sendOnResponseImpl, sendOnRequestFinishedImpl, hch, hst,
            hf, hp, countResp, countTerm, respAfterTerm, hasTerm, isTerm,
            countResp_append, countTerm_append] <;> (try split) <;> omega
      · by_cases hp : s.hasPageNetwork = true <;>
          simp [stepNR, sendOnRequestFailedImpl, hch, hst, hp, countResp,
            countTerm, respAfterTerm, hasTerm, isTerm] <;> (try split) <;> omega
    · simp [stepNR, hch, countResp, countTerm, respAfterTerm, hasTerm] <;>
        (try split) <;> omega
  | internalRedirect oldCh newCh =>
    by_cases hc : s.mapped = true ∧ s.channel = oldCh <;>
      simp [stepNR, hc, countResp, countTerm, respAfterTerm, hasTerm] <;>
      (try split) <;> omega
  | stsUpgrade oldCh newCh =>
    by_cases hc : s.mapped = true ∧ s.channel = oldCh
    · by_cases hf : s.sentOnResponse <;> by_cases hp : s.hasPageNetwork = true <;>
        simp [stepNR, sendOnResponseImpl, hc, hf, hp, countResp, countTerm,
          respAfterTerm, hasTerm, isTerm] <;> (try split) <;> omega
    · simp [stepNR, hc, countResp, countTerm, respAfterTerm, hasTerm] <;>
        (try split) <;> omega

/-- The `_sentOnResponse` idempotence flag bounds the `response` count of
a whole notification run. -/
theorem runNR_resp (ns : List NRNotif) :
    ∀ s : NRState,
      countResp (runNR s ns).2 + (if s.sentOnResponse then 1 else 0) ≤ 1 := by
  induction ns with
  | nil =>
    intro s
    simp only [runNR, countResp]
    split <;> omega
  | cons n rest ih =>
    intro s
    have h1 := (stepNR_facts s n).1
    have h2 := ih (stepNR s n).1
    have h3 : (if (stepNR s n).1.sentOnResponse then 1 else 0) ≤ 1 := by
      split <;> omega
    simp only [runNR]
    rw [countResp_append]
    omega

/-- Once the channel is unmapped and the remaining notifications are
quiet for it, the run emits nothing further. -/
theorem runNR_quiet (ns : List NRNotif) :
    ∀ s : NRState, s.mapped = false → chanQuiet s.channel ns = true →
      (runNR s ns).2 = [] := by
  induction ns with
  | nil =>
    intro s _ _
    rfl
  | cons n rest ih =>
    intro s hm hq
    cases n with
    | onDataAvailable ch data =>
      simp only [chanQuiet, Bool.and_eq_true] at hq
      have hne : ¬(ch = s.channel) := of_decide_eq_true hq.1
      simp only [runNR, stepNR, if_neg hne, List.nil_append]
      exact ih s hm hq.2
    | onStopRequest ch status =>
      simp only [chanQuiet, Bool.and_eq_true] at hq
      have hne : ¬(ch = s.channel) := of_decide_eq_true hq.1
      simp only [runNR, stepNR, if_neg hne, List.nil_append]
      exact ih s hm hq.2
    | onExamineResponse ch fromCache =>
      have hc : ¬(s.mapped = true ∧ ch = s.channel) := by simp [hm]
      simp only [chanQuiet] at hq
      simp only [runNR, stepNR, if_neg hc, List.nil_append]
      exact ih s hm hq
    | internalRedirect oldCh newCh =>
      have hc : ¬(s.mapped = true ∧ s.channel = oldCh) := by simp [hm]
      simp only [chanQuiet] at hq
      simp only [runNR, stepNR, if_neg hc, List.nil_append]
      exact ih s hm hq
    | stsUpgrade oldCh newCh =>
      have hc : ¬(s.mapped = true ∧ s.channel = oldCh) := by simp [hm]
      simp only [chanQuiet] at hq
      simp only [runNR, stepNR, if_neg hc, List.nil_append]
      exact ih s hm hq

/-- Under the stream-listener contract, a run emits at most one terminal
event and never a `response` after a terminal event. -/
theorem runNR_safe (ns : List NRNotif) :
    ∀ s : NRState, wfNotifs ns = true →
      countTerm (runNR s ns).2 ≤ 1 ∧
      respAfterTerm false (runNR s ns).2 = false := by
  induction ns with
  | nil =>
    intro s _
    simp [runNR, countTerm, respAfterTerm]
  | cons n rest ih =>
    intro s hwf
    have hwftail : wfNotifs rest = true := wfNotifs_tail n rest hwf
    have hf := stepNR_facts s n
    by_cases hht : hasTerm (stepNR s n).2 = true
    · obtain ⟨hm, hchan, st, hn⟩ := hf.2.2.2 hht
      have hq : chanQuiet s.channel rest = true := by
        rw [hn] at hwf
        simp only [wfNotifs, Bool.and_eq_true] at hwf
        exact hwf.1
      have hdead : (runNR (stepNR s n).1 rest).2 = [] := by
        refine runNR_quiet rest _ hm ?_
        rw [hchan]
        exact hq
      simp only [runNR, hdead, List.append_nil]
      exact ⟨hf.2.1, hf.2.2.1⟩
    · have hht' : hasTerm (stepNR s n).2 = false := by
        cases h : hasTerm (stepNR s n).2
        · rfl
        · exact absurd h hht
      have hct : countTerm (stepNR s n).2 = 0 :=
        countTerm_zero_of_no_term _ hht'
      obtain ⟨ih1, ih2⟩ := ih (stepNR s n).1 hwftail
      constructor
      · simp only [runNR]
        rw [countTerm_append]
        omega
      · simp only [runNR]
        rw [respAfterTerm_append_no_term _ _ hht', hf.2.2.1, ih2]
        rfl

/-! ## C1: event-lifecycle guarantees -/

/-- **C1.** Over any notification sequence obeying the per-channel
stream-listener contract, a `NetworkRequest` emits at most one `response`
(the `_sentOnResponse` flag), at most one of
`requestFinished`/`requestFailed`, never a `response` after the terminal
event — and the one `onStopRequest` delivered for the current channel
emits exactly one terminal event. -/
theorem claim_C1 (c : Nat) (hasPageNetwork : Bool) (ns : List NRNotif)
    (hwf : wfNotifs ns = true) :
    countResp (runNR (initNR c hasPageNetwork) ns).2 ≤ 1 ∧
    countTerm (runNR (initNR c hasPageNetwork) ns).2 ≤ 1 ∧
    respAfterTerm false (runNR (initNR c hasPageNetwork) ns).2 = false ∧
    (∀ s : NRState, s.hasPageNetwork = true → ∀ st : Nat,
      countTerm (stepNR s (.onStopRequest s.channel st)).2 = 1) := by
  refine ⟨?_, (runNR_safe ns _ hwf).1, (runNR_safe ns _ hwf).2, ?_⟩
  · have h := runNR_resp ns (initNR c hasPageNetwork)
    have h0 : (if (initNR c hasPageNetwork).sentOnResponse then 1 else 0) = 0 := rfl
    omega
  · intro s hp st
    by_cases hst : st = 0
    · by_cases hfl : s.sentOnResponse <;>
        simp [stepNR, sendOnResponseImpl, sendOnRequestFinishedImpl, hst, hfl,
          hp, countTerm, isTerm, countTerm_append]
    · simp [stepNR, sendOnRequestFailedImpl, hst, hp, countTerm, isTerm]

/-- Witness for C1 on a concrete notification sequence with repeated
response notifications, an internal redirect, and one stop. -/
theorem claim_C1_witness :
    countResp (runNR (initNR 1 true)
      [.onExamineResponse 1 false, .onDataAvailable 1 [9],
        .internalRedirect 1 2, .onDataAvailable 2 [8],
        .onStopRequest 2 0]).2 ≤ 1 ∧
    countTerm (runNR (initNR 1 true)
      [.onExamineResponse 1 false, .onDataAvailable 1 [9],
        .internalRedirect 1 2, .onDataAvailable 2 [8],
        .onStopRequest 2 0]).2 ≤ 1 ∧
    respAfterTerm false (runNR (initNR 1 true)
      [.onExamineResponse 1 false, .onDataAvailable 1 [9],
        .internalRedirect 1 2, .onDataAvailable 2 [8],
        .onStopRequest 2 0]).2 = false ∧
    (∀ s : NRState, s.hasPageNetwork = true → ∀ st : Nat,
      countTerm (stepNR s (.onStopRequest s.channel st)).2 = 1) :=
  claim_C1 1 true
    [.onExamineResponse 1 false, .onDataAvailable 1 [9],
      .internalRedirect 1 2, .onDataAvailable 2 [8], .onStopRequest 2 0]
    (by decide)

/-! ## C2: bounded cache with FIFO eviction -/

/-- **C2.** `addResponseBody` preserves the storage invariant; after any
call the bytes retained by non-evicted entries stay at most the per-target
cap; and when an insertion pushes the running total over the cap, the
result is exactly the inserted map with an insertion-order prefix of `k ≥ 1`
entries evicted (bytes discarded, `evicted := true`), where eviction
stopped as soon as the total was strictly under the cap (or ran out of
entries), and no shorter prefix would have sufficed. -/
theorem claim_C2 (split : JSStr → List JSStr) (s : ResponseStorage)
    (requestId : JSStr) (ch : HttpChannelEnc) (body : JSStr)
    (hwf : StorageWF s) :
    StorageWF (addResponseBody split s requestId ch body) ∧
    retainedBytes (addResponseBody split s requestId ch body).responses ≤
      s.maxTotalSize ∧
    ((body.length : Int) ≤ s.maxResponseSize →
      s.totalSize + body.length > s.maxTotalSize →
      ∃ k, 1 ≤ k ∧
        k ≤ (mapSet s.responses requestId
          ⟨body, channelEncodings split ch, false⟩).length ∧
        (addResponseBody split s requestId ch body).responses =
          ((mapSet s.responses requestId
            ⟨body, channelEncodings split ch, false⟩).take k).map evictEntry ++
          (mapSet s.responses requestId
            ⟨body, channelEncodings split ch, false⟩).drop k ∧
        ((addResponseBody split s requestId ch body).totalSize <
            s.maxTotalSize ∨
          k = (mapSet s.responses requestId
            ⟨body, channelEncodings split ch, false⟩).length) ∧
        (∀ j, 1 ≤ j → j < k →
          s.maxTotalSize ≤ s.totalSize + body.length -
            sumBody ((mapSet s.responses requestId
              ⟨body, channelEncodings split ch, false⟩).take j))) := by
  obtain ⟨hwf1, hwf2, hwf3, hwf4⟩ := hwf
  by_cases hbig : (body.length : Int) > s.maxResponseSize
  · have heq : addResponseBody split s requestId ch body =
        { s with responses := mapSet s.responses requestId ⟨[], [], true⟩ } := by
      simp [addResponseBody, hbig]
    have hle : retainedBytes (mapSet s.responses requestId ⟨[], [], true⟩) ≤
        retainedBytes s.responses := by
      have h := retainedBytes_mapSet_le s.responses requestId ⟨[], [], true⟩
      simpa using h
    rw [heq]
    refine ⟨⟨?_, ?_, ?_, hwf4⟩, ?_, ?_⟩
    · intro kr hkr he
      rcases mem_mapSet _ _ _ kr hkr with h | h
      · exact hwf1 kr h he
      · rw [h]
    · simp only
      omega
    · simp only
      omega
    · simp only
      omega
    · intro hsmall _
      exact absurd hsmall (by omega)
  · by_cases hover : s.totalSize + (body.length : Int) > s.maxTotalSize
    · obtain ⟨k, hklen, hk1, heqloop, hstop, hmin⟩ :=
        evictLoop_spec
          (mapSet s.responses requestId ⟨body, channelEncodings split ch, false⟩)
          (s.totalSize + body.length) s.maxTotalSize
      have hk1' : 1 ≤ k := by
        rcases hk1 with h | h
        · exact absurd h (mapSet_ne_nil _ _ _)
        · exact h
      have heq : addResponseBody split s requestId ch body =
          { s with
              responses := ((mapSet s.responses requestId
                  ⟨body, channelEncodings split ch, false⟩).take k).map
                evictEntry ++
                (mapSet s.responses requestId
                  ⟨body, channelEncodings split ch, false⟩).drop k
              totalSize := s.totalSize + body.length -
                sumBody ((mapSet s.responses requestId
                  ⟨body, channelEncodings split ch, false⟩).take k) } := by
        simp [addResponseBody, hbig, hover, heqloop]
      have hM1 : ∀ kr ∈ mapSet s.responses requestId
          ⟨body, channelEncodings split ch, false⟩,
          kr.2.evicted = true → kr.2.body = [] := by
        intro kr hkr he
        rcases mem_mapSet _ _ _ kr hkr with h | h
        · exact hwf1 kr h he
        · rw [h] at he
          simp at he
      have hMle : retainedBytes (mapSet s.responses requestId
          ⟨body, channelEncodings split ch, false⟩) ≤
          s.totalSize + body.length := by
        have := retainedBytes_mapSet_le s.responses requestId
          ⟨body, channelEncodings split ch, false⟩
        simp only [if_neg (by simp : ¬((⟨body, channelEncodings split ch, false⟩ :
          StoredResponse).evicted = true))] at this
        omega
      have hsplit : retainedBytes ((mapSet s.responses requestId
            ⟨body, channelEncodings split ch, false⟩).take k) +
          retainedBytes ((mapSet s.responses requestId
            ⟨body, channelEncodings split ch, false⟩).drop k) =
          retainedBytes (mapSet s.responses requestId
            ⟨body, channelEncodings split ch, false⟩) := by
        rw [← retainedBytes_append, List.take_append_drop]
      have htake : sumBody ((mapSet s.responses requestId
            ⟨body, channelEncodings split ch, false⟩).take k) =
          retainedBytes ((mapSet s.responses requestId
            ⟨body, channelEncodings split ch, false⟩).take k) :=
        sumBody_eq_retained _
          (fun kr hkr => hM1 kr (List.take_subset _ _ hkr))
      have hretained : retainedBytes (((mapSet s.responses requestId
            ⟨body, channelEncodings split ch, false⟩).take k).map evictEntry ++
          (mapSet s.responses requestId
            ⟨body, channelEncodings split ch, false⟩).drop k) =
          retainedBytes (mapSet s.responses requestId
            ⟨body, channelEncodings split ch, false⟩) -
            sumBody ((mapSet s.responses requestId
              ⟨body, channelEncodings split ch, false⟩).take k) := by
        rw [retainedBytes_append, retainedBytes_evicted, htake]
        omega
      have hboundmax : retainedBytes (((mapSet s.responses requestId
            ⟨body, channelEncodings split ch, false⟩).take k).map evictEntry ++
          (mapSet s.responses requestId
            ⟨body, channelEncodings split ch, false⟩).drop k) ≤
          s.maxTotalSize := by
        rcases hstop with h | h
        · omega
        · rw [hretained, htake, ← hsplit, h, List.drop_length]
          have hnn := retainedBytes_nonneg (((mapSet s.responses requestId
            ⟨body, channelEncodings split ch, false⟩)).take k)
          simp [retainedBytes]
          omega
      rw [heq]
      refine ⟨⟨?_, ?_, ?_, hwf4⟩, ?_, ?_⟩
      · intro kr hkr he
        rcases List.mem_append.1 hkr with h | h
        · obtain ⟨kr', _, rfl⟩ := List.mem_map.1 h
          rfl
        · exact hM1 kr (List.drop_subset _ _ h) he
      · simp only
        omega
      · simp only
        exact hboundmax
      · simp only
        exact hboundmax
      · intro _ _
        exact ⟨k, hk1', hklen, rfl, by simp only; omega, hmin⟩
    · have heq : addResponseBody split s requestId ch body =
          { s with
              responses := mapSet s.responses requestId
                ⟨body, channelEncodings split ch, false⟩
              totalSize := s.totalSize + body.length } := by
        simp [addResponseBody, hbig, hover]
      have hMle : retainedBytes (mapSet s.responses requestId
          ⟨body, channelEncodings split ch, false⟩) ≤
          retainedBytes s.responses + body.length := by
        have := retainedBytes_mapSet_le s.responses requestId
          ⟨body, channelEncodings split ch, false⟩
        simp only [if_neg (by simp : ¬((⟨body, channelEncodings split ch, false⟩ :
          StoredResponse).evicted = true))] at this
        omega
      rw [heq]
      refine ⟨⟨?_, ?_, ?_, hwf4⟩, ?_, ?_⟩
      · intro kr hkr he
        rcases mem_mapSet _ _ _ kr hkr with h | h
        · exact hwf1 kr h he
        · rw [h] at he
          simp at he
      · simp only
        omega
      · simp only
        omega
      · simp only
        omega
      · intro _ hov
        exact absurd hov (by omega)

/-- Witness for C2 on a concrete store where the insertion triggers an
eviction of the oldest entry. -/
theorem claim_C2_witness :
    StorageWF (addResponseBody (fun h => [h])
      ⟨3, 10, 4, [([1], ⟨[7, 7, 7], [], false⟩)]⟩ [2]
      ⟨false, false, false, []⟩ [8, 8]) ∧
    retainedBytes (addResponseBody (fun h => [h])
      ⟨3, 10, 4, [([1], ⟨[7, 7, 7], [], false⟩)]⟩ [2]
      ⟨false, false, false, []⟩ [8, 8]).responses ≤ 4 :=
  ⟨(claim_C2 (fun h => [h]) ⟨3, 10, 4, [([1], ⟨[7, 7, 7], [], false⟩)]⟩ [2]
      ⟨false, false, false, []⟩ [8, 8] (by decide)).1,
    (claim_C2 (fun h => [h]) ⟨3, 10, 4, [([1], ⟨[7, 7, 7], [], false⟩)]⟩ [2]
      ⟨false, false, false, []⟩ [8, 8] (by decide)).2.1⟩

/-! ## Redirect-chain lemmas -/

theorem buildChain_length (rest : List (Nat × Bool)) :
    ∀ e : Exchange, (buildChain e rest).length = rest.length + 1 := by
  induction rest with
  | nil => intro e; rfl
  | cons cm r ih =>
    intro e
    obtain ⟨c, m⟩ := cm
    simp [buildChain, ih]

theorem buildChain_get (rest : List (Nat × Bool)) :
    ∀ (e : Exchange) (i : Nat) (h : i < (buildChain e rest).length),
      (buildChain e rest).get ⟨i, h⟩ = chainMember e rest i := by
  induction rest with
  | nil =>
    intro e i h
    simp only [buildChain, List.length_singleton] at h
    match i, h with
    | 0, _ => simp [buildChain, chainMember]
  | cons cm r ih =>
    intro e i h
    obtain ⟨c, m⟩ := cm
    cases i with
    | zero => simp [buildChain, chainMember]
    | succ i' =>
      have hb : buildChain e ((c, m) :: r) =
          e :: buildChain (mkExchange c m (some e)) r := by
        simp [buildChain]
      have h' : i' + 1 < (e :: buildChain (mkExchange c m (some e)) r).length := by
        rw [hb] at h
        exact h
      have hget : (buildChain e ((c, m) :: r)).get ⟨i' + 1, h⟩ =
          (buildChain (mkExchange c m (some e)) r).get ⟨i', by simpa using h'⟩ := by
        rw [List.get_of_eq hb]
        rfl
      rw [hget, ih (mkExchange c m (some e)) i' _]
      simp [chainMember]

theorem chainMember_nav (rest : List (Nat × Bool)) :
    ∀ (e : Exchange) (i : Nat), i ≤ rest.length →
      (chainMember e rest i).navigationId = e.navigationId := by
  induction rest with
  | nil =>
    intro e i h
    cases i with
    | zero => simp [chainMember]
    | succ i' => simp at h
  | cons cm r ih =>
    intro e i h
    obtain ⟨c, m⟩ := cm
    cases i with
    | zero => simp [chainMember]
    | succ i' =>
      have hstep : chainMember e ((c, m) :: r) (i' + 1) =
          chainMember (mkExchange c m (some e)) r i' := by
        simp [chainMember]
      rw [hstep, ih (mkExchange c m (some e)) i' (by simpa using h)]
      rfl

theorem chainMember_idx (rest : List (Nat × Bool)) :
    ∀ (e : Exchange) (i : Nat), i ≤ rest.length →
      (chainMember e rest i).redirectedIndex = e.redirectedIndex + i := by
  induction rest with
  | nil =>
    intro e i h
    cases i with
    | zero => simp [chainMember]
    | succ i' => simp at h
  | cons cm r ih =>
    intro e i h
    obtain ⟨c, m⟩ := cm
    cases i with
    | zero => simp [chainMember]
    | succ i' =>
      have hstep : chainMember e ((c, m) :: r) (i' + 1) =
          chainMember (mkExchange c m (some e)) r i' := by
        simp [chainMember]
      rw [hstep, ih (mkExchange c m (some e)) i' (by simpa using h)]
      have hmk : (mkExchange c m (some e)).redirectedIndex =
          e.redirectedIndex + 1 := rfl
      rw [hmk]
      omega

theorem chainMember_from (rest : List (Nat × Bool)) :
    ∀ (e : Exchange) (i : Nat), i + 1 ≤ rest.length →
      (chainMember e rest (i + 1)).redirectedFromId =
        some ((chainMember e rest i).requestId) := by
  induction rest with
  | nil =>
    intro e i h
    simp at h
  | cons cm r ih =>
    intro e i h
    obtain ⟨c, m⟩ := cm
    cases i with
    | zero => simp [chainMember, mkExchange]
    | succ i' =>
      have h1 : chainMember e ((c, m) :: r) (i' + 1 + 1) =
          chainMember (mkExchange c m (some e)) r (i' + 1) := by
        simp [chainMember]
      have h2 : chainMember e ((c, m) :: r) (i' + 1) =
          chainMember (mkExchange c m (some e)) r i' := by
        simp [chainMember]
      rw [h1, h2]
      exact ih (mkExchange c m (some e)) i' (by simpa using h)

theorem chainMember_id_shape (rest : List (Nat × Bool)) :
    ∀ (e : Exchange) (i : Nat), i + 1 ≤ rest.length →
      ∃ c, (chainMember e rest (i + 1)).requestId =
        natToStr c ++ 45 ::
          (redirectWord ++ natToStr (e.redirectedIndex + (i + 1))) := by
  induction rest with
  | nil =>
    intro e i h
    simp at h
  | cons cm r ih =>
    intro e i h
    obtain ⟨c, m⟩ := cm
    cases i with
    | zero =>
      refine ⟨c, ?_⟩
      simp [chainMember, mkExchange, List.cons_append, List.append_assoc]
    | succ i' =>
      have h1 : chainMember e ((c, m) :: r) (i' + 1 + 1) =
          chainMember (mkExchange c m (some e)) r (i' + 1) := by
        simp [chainMember]
      obtain ⟨c', hc'⟩ := ih (mkExchange c m (some e)) i' (by simpa using h)
      refine ⟨c', ?_⟩
      rw [h1, hc']
      have hmk : (mkExchange c m (some e)).redirectedIndex =
          e.redirectedIndex + 1 := rfl
      rw [hmk]
      have harith : e.redirectedIndex + 1 + (i' + 1) =
          e.redirectedIndex + (i' + 1 + 1) := by omega
      rw [harith]

theorem chain_ids_distinct (c₀ : Nat) (m₀ : Bool) (rest : List (Nat × Bool)) :
    ∀ i j, i < j → j ≤ rest.length →
      (chainMember (mkExchange c₀ m₀ none) rest i).requestId ≠
        (chainMember (mkExchange c₀ m₀ none) rest j).requestId := by
  intro i j hij hj
  obtain ⟨j', rfl⟩ : ∃ j', j = j' + 1 := ⟨j - 1, by omega⟩
  obtain ⟨cj, hcj⟩ := chainMember_id_shape rest (mkExchange c₀ m₀ none) j' hj
  have hidx0 : (mkExchange c₀ m₀ none).redirectedIndex = 0 := rfl
  rw [hidx0, Nat.zero_add] at hcj
  cases i with
  | zero =>
    have h0 : (chainMember (mkExchange c₀ m₀ none) rest 0).requestId =
        natToStr c₀ := by
      simp [chainMember, mkExchange]
    intro heq
    rw [h0, hcj] at heq
    have h45 : (45 : Nat) ∈ natToStr c₀ := by
      rw [heq]
      exact List.mem_append.2 (Or.inr (List.mem_cons_self _ _))
    exact natToStr_no_dash c₀ 45 h45 rfl
  | succ i' =>
    obtain ⟨ci, hci⟩ :=
      chainMember_id_shape rest (mkExchange c₀ m₀ none) i' (by omega)
    rw [hidx0, Nat.zero_add] at hci
    intro heq
    rw [hci, hcj] at heq
    obtain ⟨-, htail⟩ :=
      append_sep_inj _ _ _ _ (natToStr_no_dash ci) (natToStr_no_dash cj) heq
    have hids : natToStr (i' + 1) = natToStr (j' + 1) :=
      List.append_cancel_left htail
    have := natToStr_inj hids
    omega

/-! ## C3: redirect chains -/

/-- **C3 counterexample.** In a chain whose first exchange is not a
main-document channel, `navigationId` is `undefined` for every member, so
it does not equal the first exchange's id. -/
theorem claim_C3_counterexample :
    (mkExchange 2 false (some (mkExchange 1 false none))).navigationId =
      none ∧
    (mkExchange 1 false none).navigationId = none ∧
    some ((mkExchange 1 false none).requestId) ≠
      (mkExchange 2 false (some (mkExchange 1 false none))).navigationId := by
  decide

/-- **C3 (amended).** Every member of a redirect chain shares the first
exchange's `navigationId` — which equals the first exchange's id exactly
when the chain starts at a main-document channel (otherwise it is
`undefined`); `redirectedFromId` links each member back to its
predecessor, with none on the first member; the redirect ordinal of the
`i`-th member is exactly `i` (so it strictly increases along the chain);
and all member ids are pairwise distinct. -/
theorem claim_C3 (c₀ : Nat) (m₀ : Bool) (rest : List (Nat × Bool)) :
    (∀ i (h : i < (redirectChain c₀ m₀ rest).length),
      ((redirectChain c₀ m₀ rest).get ⟨i, h⟩).navigationId =
        (mkExchange c₀ m₀ none).navigationId) ∧
    (m₀ = true → (mkExchange c₀ m₀ none).navigationId =
      some ((mkExchange c₀ m₀ none).requestId)) ∧
    (∀ i (h : i < (redirectChain c₀ m₀ rest).length),
      ((redirectChain c₀ m₀ rest).get ⟨i, h⟩).redirectedIndex = i) ∧
    ((mkExchange c₀ m₀ none).redirectedFromId = none) ∧
    (∀ i (h : i + 1 < (redirectChain c₀ m₀ rest).length),
      ((redirectChain c₀ m₀ rest).get ⟨i + 1, h⟩).redirectedFromId =
        some (((redirectChain c₀ m₀ rest).get
          ⟨i, Nat.lt_of_succ_lt h⟩).requestId)) ∧
    (∀ i j (hi : i < (redirectChain c₀ m₀ rest).length)
        (hj : j < (redirectChain c₀ m₀ rest).length), i ≠ j →
      ((redirectChain c₀ m₀ rest).get ⟨i, hi⟩).requestId ≠
        ((redirectChain c₀ m₀ rest).get ⟨j, hj⟩).requestId) := by
  have hlen : (redirectChain c₀ m₀ rest).length = rest.length + 1 :=
    buildChain_length rest _
  refine ⟨?_, ?_, ?_, rfl, ?_, ?_⟩
  · intro i h
    simp only [redirectChain]
    rw [buildChain_get rest _ i h]
    exact chainMember_nav rest _ i (by omega)
  · intro hm
    subst hm
    rfl
  · intro i h
    simp only [redirectChain]
    rw [buildChain_get rest _ i h]
    rw [chainMember_idx rest _ i (by omega)]
    have h0 : (mkExchange c₀ m₀ none).redirectedIndex = 0 := rfl
    omega
  · intro i h
    simp only [redirectChain]
    rw [buildChain_get rest _ (i + 1) h, buildChain_get rest _ i (Nat.lt_of_succ_lt h)]
    exact chainMember_from rest _ i (by omega)
  · intro i j hi hj hne
    simp only [redirectChain]
    rw [buildChain_get rest _ i hi, buildChain_get rest _ j hj]
    rcases Nat.lt_or_ge i j with hij | hij
    · exact chain_ids_distinct c₀ m₀ rest i j hij (by omega)
    · have hji : j < i := by omega
      exact (chain_ids_distinct c₀ m₀ rest j i hji (by omega)).symm

/-- Witness for C3 on a concrete three-member main-document chain. -/
theorem claim_C3_witness :
    ((redirectChain 7 true [(8, false), (9, false)]).get ⟨2, by decide⟩).navigationId =
      (mkExchange 7 true none).navigationId ∧
    (mkExchange 7 true none).navigationId =
      some ((mkExchange 7 true none).requestId) ∧
    ((redirectChain 7 true [(8, false), (9, false)]).get ⟨2, by decide⟩).redirectedIndex = 2 ∧
    ((redirectChain 7 true [(8, false), (9, false)]).get ⟨1, by decide⟩).redirectedFromId =
      some (((redirectChain 7 true [(8, false), (9, false)]).get ⟨0, by decide⟩).requestId) ∧
    ((redirectChain 7 true [(8, false), (9, false)]).get ⟨0, by decide⟩).requestId ≠
      ((redirectChain 7 true [(8, false), (9, false)]).get ⟨2, by decide⟩).requestId :=
  ⟨(claim_C3 7 true [(8, false), (9, false)]).1 2 (by decide),
    (claim_C3 7 true [(8, false), (9, false)]).2.1 rfl,
    (claim_C3 7 true [(8, false), (9, false)]).2.2.1 2 (by decide),
    (claim_C3 7 true [(8, false), (9, false)]).2.2.2.2.1 0 (by decide),
    (claim_C3 7 true [(8, false), (9, false)]).2.2.2.2.2 0 2 (by decide) (by decide)
      (by decide)⟩

end Juggler
